import Mathlib

/-!
Shallow embedding of the neuromorphic learning-network orchestrator of
`claude_pyspice_net.py`: cell-type topology assignment, circuit-model
construction, phased stimulus-waveform synthesis, state extraction,
performance evaluation and the learning loop.

Machine floats of the Python code are modelled by rationals; numpy random
draws are modelled by explicitly supplied value sources (functions), so every
statement quantifies over the possible draws.
-/

namespace PyspiceNet


/-! ## Definitions -/

/-- Cell types of `claude_pyspice_net.py` lines 20-23:
`CELL_TYPE_SRAM = 0`, `CELL_TYPE_DRAM_REFRESHED = 1`,
`CELL_TYPE_DRAM_LEAKY = 2`, `CELL_TYPE_DRAM_NEIGHBOR_CTRL_LEAKY = 3`. -/
inductive CellType where
  | sram
  | dramRefreshed
  | dramLeaky
  | dramNeighborCtrl
deriving DecidableEq, Repr

/-- A cell-type matrix, addressed by (row, column). Python stores a
`d1 × d2` numpy array; we model it as a total function and state properties
on indices inside the declared bounds. -/
def CellMatrix := ℕ → ℕ → CellType

/-- Pointwise update of a cell matrix at one (row, column) entry,
modelling `m[r, c] = v`. -/
def update2 (m : CellMatrix) (r c : ℕ) (v : CellType) : CellMatrix :=
  fun r' c' => if r' = r ∧ c' = c then v else m r' c'

/-- `np.full((d1, d2), CELL_TYPE_DRAM_LEAKY)`: all entries start leaky. -/
def initMatrix : CellMatrix := fun _ _ => CellType.dramLeaky

/-- `for i in range(min(d1, d2)): m[i, i] = CELL_TYPE_SRAM`. -/
def markDiagonal (d : ℕ) (m : CellMatrix) : CellMatrix :=
  (List.range d).foldl (fun m i => update2 m i i CellType.sram) m

/-- The DRAM-refreshed pass: each chosen flat index `i` is decoded as
`(i // d2, i % d2)` and set to `dramRefreshed` unless the entry is SRAM
(source lines 128-133 and 152-158). -/
def applyRefreshed (d2 : ℕ) (idx : List ℕ) (m : CellMatrix) : CellMatrix :=
  idx.foldl
    (fun m i =>
      if m (i / d2) (i % d2) ≠ CellType.sram then
        update2 m (i / d2) (i % d2) CellType.dramRefreshed
      else m)
    m

/-- The neighbor-controlled pass: for each post-synaptic neuron (column `c`)
a list of pre-synaptic rows is chosen; each `(r, c)` is set to
`dramNeighborCtrl` unless the entry is SRAM (source lines 136-143, 161-166). -/
def applyNeighborCtrl (choices : List (ℕ × List ℕ)) (m : CellMatrix) : CellMatrix :=
  choices.foldl
    (fun m pc =>
      pc.2.foldl
        (fun m r =>
          if m r pc.1 ≠ CellType.sram then
            update2 m r pc.1 CellType.dramNeighborCtrl
          else m)
        m)
    m

/-- One layer of `initialize_network_architecture` (lines 116-174): start all
leaky, mark the diagonal SRAM, apply the refreshed pass on the random flat
indices `refreshedIdx`, then the neighbor-controlled pass on the random
per-column row choices. -/
def assignLayerCellTypes (d1 d2 : ℕ) (refreshedIdx : List ℕ)
    (neighborChoices : List (ℕ × List ℕ)) : CellMatrix :=
  applyNeighborCtrl neighborChoices
    (applyRefreshed d2 refreshedIdx (markDiagonal (min d1 d2) initMatrix))

/-- The number of SRAM entries inside the declared `d1 × d2` bounds. -/
def sramCount (d1 d2 : ℕ) (m : CellMatrix) : ℕ :=
  ((Finset.range d1 ×ˢ Finset.range d2).filter
    (fun p => m p.1 p.2 = CellType.sram)).card


/-! ### Stimulus sequencer (`generate_simulation_signals`, lines 452-608) -/

/-- `time_step = 0.05e-6` seconds (line 454). -/
def timeStep : ℚ := 5 / 100000000

/-- Each of the five phase durations is `5e-6` seconds (lines 467-471),
and the final rest period is the same `5e-6` (line 582). -/
def phaseDur : ℚ := 5 / 1000000

/-- `vdd = 1.2` inside the signal generator (line 455). -/
def vddSig : ℚ := 12 / 10

/-- `present_strength = 15.0` (line 474). -/
def presentStrength : ℚ := 15

/-- `LEARNING_RATE_BASE = 1.0` (line 27). -/
def learningRateBase : ℚ := 1

/-- `LATERAL_INHIBITION_STRENGTH = 0.8` (line 28). -/
def lateralInhibitStrength : ℚ := 8 / 10

/-- `error_strength = LEARNING_RATE_BASE * (1.0 - 0.2 * learning_step)`
(line 475). -/
def errorStrength (learning_step : ℕ) : ℚ :=
  learningRateBase * (1 - (2 / 10) * learning_step)

/-- `inhibit_strength = LATERAL_INHIBITION_STRENGTH * (1.0 + 0.2 * learning_step)`
(line 476). -/
def inhibitStrength (learning_step : ℕ) : ℚ :=
  lateralInhibitStrength * (1 + (2 / 10) * learning_step)

/-- The mutable state of `generate_simulation_signals`: the time axis `T`,
the per-input channel value lists `V_inputs`, the per-output error channel
value lists `V_errors`, the neighbor-modulation channel `V_neighbor_mod`,
and `t_current`. -/
structure SigState where
  T : List ℚ
  Vinputs : List (List ℚ)
  Verrors : List (List ℚ)
  VneighborMod : List ℚ
  tCurrent : ℚ
deriving DecidableEq, Repr

/-- Lines 458-464: `T = [0.0]`, each channel starts as `[0.0]`,
`t_current = 0.0`. -/
def sigInit (nIn nOut : ℕ) : SigState :=
  { T := [0]
    Vinputs := List.replicate nIn [0]
    Verrors := List.replicate nOut [0]
    VneighborMod := [0]
    tCurrent := 0 }

/-- One sample append: `t_current += dt; T.append(t_current)`, and every
channel appends one value computed from its channel index and its current
value list (the code reads `V[...][-1]` for "maintain current value"). -/
def pushAll (s : SigState) (dt : ℚ) (vin verr : ℕ → List ℚ → ℚ)
    (vnm : List ℚ → ℚ) : SigState :=
  { T := s.T ++ [s.tCurrent + dt]
    Vinputs := s.Vinputs.mapIdx (fun i l => l ++ [vin i l])
    Verrors := s.Verrors.mapIdx (fun o l => l ++ [verr o l])
    VneighborMod := s.VneighborMod ++ [vnm s.VneighborMod]
    tCurrent := s.tCurrent + dt }

/-- A channel that appends `0.0`. -/
def chZero : ℕ → List ℚ → ℚ := fun _ _ => 0

/-- A channel that maintains its current value (`V[...].append(V[...][-1])`). -/
def chHold : ℕ → List ℚ → ℚ := fun _ l => l.getLastD 0

/-- Neighbor-modulation channel appending `0.0`. -/
def nmZero : List ℚ → ℚ := fun _ => 0

/-- Neighbor-modulation channel maintaining its value
(`V_neighbor_mod.append(V_neighbor_mod[-1])`). -/
def nmHold : List ℚ → ℚ := fun l => l.getLastD 0

/-- The per-pattern body of the loop at lines 479-579: five phases, each
contributing an edge sample (after `time_step`) and a hold sample (after
`duration - time_step`). `es` and `ins` are the step's error and
lateral-inhibition strengths. -/
def processPattern (es ins : ℚ) (pattern target : List ℕ) (s : SigState) :
    SigState :=
  let s1 := pushAll s timeStep
    (fun i _ => if pattern.getD i 0 > 0 then vddSig * presentStrength else 0)
    chZero nmZero
  let s2 := pushAll s1 (phaseDur - timeStep) chHold chZero nmZero
  let s3 := pushAll s2 timeStep chZero chZero nmZero
  let s4 := pushAll s3 (phaseDur - timeStep) chZero chZero nmZero
  let s5 := pushAll s4 timeStep chZero
    (fun o _ =>
      if target.getD o 0 > 0 then -es * vddSig else es * vddSig * (1 / 2))
    (fun _ => ins * vddSig)
  let s6 := pushAll s5 (phaseDur - timeStep) chZero chHold nmHold
  let s7 := pushAll s6 timeStep chZero chZero nmHold
  let s8 := pushAll s7 (phaseDur - timeStep) chZero chZero nmHold
  let s9 := pushAll s8 timeStep chZero chZero nmZero
  pushAll s9 (phaseDur - timeStep) chZero chZero nmZero

/-- `generate_simulation_signals` (lines 452-608): the initial sample, the
per-pattern five-phase protocol over `zip(train_patterns, train_targets)`,
and the final rest sample after `5e-6` more seconds. -/
def generate_simulation_signals (nIn nOut : ℕ)
    (trainPatterns trainTargets : List (List ℕ)) (learning_step : ℕ) :
    SigState :=
  let s0 := sigInit nIn nOut
  let s := (trainPatterns.zip trainTargets).foldl
    (fun s pt =>
      processPattern (errorStrength learning_step)
        (inhibitStrength learning_step) pt.1 pt.2 s)
    s0
  pushAll s phaseDur chZero chZero nmZero

/-- Well-formedness invariant of the generator state: the time axis is
non-empty, strictly increasing, ends at `t_current`, and every channel has
exactly one value per time sample. -/
def SigOk (nIn nOut : ℕ) (s : SigState) : Prop :=
  s.T.getLast? = some s.tCurrent ∧
  List.Chain' (· < ·) s.T ∧
  s.Vinputs.length = nIn ∧
  s.Verrors.length = nOut ∧
  (∀ l ∈ s.Vinputs, l.length = s.T.length) ∧
  (∀ l ∈ s.Verrors, l.length = s.T.length) ∧
  s.VneighborMod.length = s.T.length

/-! ### Circuit builder (`build_circuit_for_learning`, lines 191-450)

Only the element structure (names, terminals, values) is modelled; `.model`
cards and the raw-spice option block carry no connectivity and are omitted.
PySpice's `circuit.MOSFET(name, d, g, s, b)` takes drain, gate, source, bulk
in that order. -/

/-- A circuit element: capacitor, resistor, independent voltage source, or a
four-terminal MOSFET (drain, gate, source, bulk, model name). -/
inductive Element where
  | cap (name n1 n2 : String) (value : ℚ)
  | res (name n1 n2 : String) (value : ℚ)
  | vsrc (name pos neg : String) (value : ℚ)
  | mosfet (name drain gate source bulk model : String)
deriving DecidableEq, Repr

/-- Ground (`circuit.gnd`). -/
def gndNode : String := "0"

/-- `input_{i}` (line 230). -/
def inputNode (i : ℕ) : String := s!"input_{i}"

/-- `hidden_{h}` (line 231). -/
def hiddenNode (h : ℕ) : String := s!"hidden_{h}"

/-- `output_{o}` (line 232). -/
def outputNode (o : ℕ) : String := s!"output_{o}"

/-- `error_{o}` (line 270). -/
def errorNode (o : ℕ) : String := s!"error_{o}"

/-- `ih_syn_{i}_{h}_fast` (line 235). -/
def ihFastNode (i h : ℕ) : String := s!"ih_syn_{i}_{h}_fast"

/-- `ih_syn_{i}_{h}_slow` (line 236). -/
def ihSlowNode (i h : ℕ) : String := s!"ih_syn_{i}_{h}_slow"

/-- `ho_syn_{h}_{o}_fast` (line 239). -/
def hoFastNode (h o : ℕ) : String := s!"ho_syn_{h}_{o}_fast"

/-- `ho_syn_{h}_{o}_slow` (line 240). -/
def hoSlowNode (h o : ℕ) : String := s!"ho_syn_{h}_{o}_slow"

/-- `v_neighbor_modulate` (line 267). -/
def neighborModNode : String := "v_neighbor_modulate"

/-- `vdd` (line 210). -/
def vddNode : String := "vdd"

/-- `verror_{o}_src_internal` (line 274). -/
def verrorSrcNode (o : ℕ) : String := s!"verror_{o}_src_internal"

/-- `1e-15` F, the default anti-floating capacitance. -/
def smallCap : ℚ := 1 / 1000000000000000

/-- `100e-15` F, the bit/word-line parasitic capacitance. -/
def lineCap : ℚ := 1 / 10000000000000

/-- One draw of `randomize_rc` (lines 289-295): a resistance, a capacitance
and a threshold voltage. The noise is modelled by quantifying over draws. -/
structure RandRC where
  R : ℚ
  C : ℚ
  VTO : ℚ
deriving DecidableEq, Repr

/-- The per-synapse random draws consumed by the builder: one fast and one
slow `randomize_rc` draw per input-hidden and per hidden-output synapse. -/
structure CircuitParams where
  ihFastRC : ℕ → ℕ → RandRC
  ihSlowRC : ℕ → ℕ → RandRC
  hoFastRC : ℕ → ℕ → RandRC
  hoSlowRC : ℕ → ℕ → RandRC

/-- Global circuit elements (lines 210-276): supply, anti-floating and
membrane capacitors on the layer nodes, membrane leak resistors, the
neighbor-modulation source, and the error-node series/pull-down resistors.
Note: only input/hidden/output nodes receive capacitors here; the error
nodes and the neighbor-modulation node get none. -/
def globalElements (nIn nHid nOut : ℕ) : List Element :=
  [Element.vsrc "dd" vddNode gndNode 12]
  ++ (List.range nIn).map
      (fun i => Element.cap s!"input_{i}_gnd_cap" (inputNode i) gndNode smallCap)
  ++ (List.range nHid).map
      (fun h => Element.cap s!"hidden_{h}_gnd_cap" (hiddenNode h) gndNode smallCap)
  ++ (List.range nOut).map
      (fun o => Element.cap s!"output_{o}_gnd_cap" (outputNode o) gndNode smallCap)
  ++ (List.range nIn).map
      (fun i => Element.cap s!"input_{i}_cap" (inputNode i) gndNode lineCap)
  ++ ((List.range nHid).flatMap fun h =>
      [Element.cap s!"hidden_{h}_cap" (hiddenNode h) gndNode lineCap,
       Element.res s!"hidden_{h}_leak" (hiddenNode h) gndNode 5000000])
  ++ ((List.range nOut).flatMap fun o =>
      [Element.cap s!"output_{o}_cap" (outputNode o) gndNode lineCap,
       Element.res s!"output_{o}_leak" (outputNode o) gndNode 5000000])
  ++ [Element.vsrc "neighbor_mod" neighborModNode gndNode 0]
  ++ ((List.range nOut).flatMap fun o =>
      [Element.res s!"verror_{o}_series" (verrorSrcNode o) (errorNode o) 1000,
       Element.res s!"verror_{o}_pulldown" (errorNode o) gndNode 10000000])

/-- The elements of one input-to-hidden synapse (lines 298-377): storage
capacitors, forward/feedback/readout MOSFETs, cell-type-dependent leakage,
the neighbor-controlled leak MOSFET for `dramNeighborCtrl` cells, and the
direct-pathway error-feedback MOSFETs. -/
def ihSynElements (nOut i h : ℕ) (ct : CellType) (fRC sRC : RandRC) :
    List Element :=
  [Element.cap s!"ac_ih_fast_{i}_{h}" (ihFastNode i h) gndNode fRC.C,
   Element.cap s!"ac_ih_slow_{i}_{h}" (ihSlowNode i h) gndNode sRC.C,
   Element.cap s!"ac_ih_fast_gnd_{i}_{h}" (ihFastNode i h) gndNode smallCap,
   Element.cap s!"ac_ih_slow_gnd_{i}_{h}" (ihSlowNode i h) gndNode smallCap,
   Element.mosfet s!"ih_mf_pre_{i}_{h}" vddNode (inputNode i)
     (ihFastNode i h) gndNode s!"ih_nmos_{i}_{h}",
   Element.mosfet s!"ih_mf_post_{i}_{h}" vddNode (hiddenNode h)
     (ihFastNode i h) gndNode "nmos_learn",
   Element.mosfet s!"ih_mf_out_{i}_{h}" vddNode (ihFastNode i h)
     (hiddenNode h) gndNode "nmos_syn"]
  ++ (if ct = CellType.sram ∨ ct = CellType.dramRefreshed then
      [Element.res s!"ih_r_fast_{i}_{h}" (ihFastNode i h) gndNode
         (if ct = CellType.sram then 1000000000 else fRC.R * 5),
       Element.res s!"ih_r_slow_{i}_{h}" (ihSlowNode i h) gndNode
         (if ct = CellType.sram then 1000000000 else sRC.R * 5)]
    else
      [Element.res s!"ih_r_fast_{i}_{h}" (ihFastNode i h) gndNode fRC.R,
       Element.res s!"ih_r_slow_{i}_{h}" (ihSlowNode i h) gndNode sRC.R,
       Element.res s!"ih_leak_{i}_{h}" (ihFastNode i h) gndNode (fRC.R * 5)]
      ++ (if ct = CellType.dramNeighborCtrl then
          [Element.mosfet s!"ih_leak_ctrl_{i}_{h}" vddNode (ihFastNode i h)
             neighborModNode gndNode "nmos_leak_ctrl"]
        else []))
  ++ ((List.range nOut).flatMap fun o =>
      if o = h % nOut then
        [Element.mosfet s!"ih_err_{i}_{h}_{o}" vddNode (errorNode o)
           (ihFastNode i h) gndNode "nmos_learn"]
      else [])

/-- The elements of one hidden-to-output synapse (lines 380-448). -/
def hoSynElements (h o : ℕ) (ct : CellType) (fRC sRC : RandRC) :
    List Element :=
  [Element.cap s!"ac_ho_fast_{h}_{o}" (hoFastNode h o) gndNode fRC.C,
   Element.cap s!"ac_ho_slow_{h}_{o}" (hoSlowNode h o) gndNode sRC.C,
   Element.cap s!"ac_ho_fast_gnd_{h}_{o}" (hoFastNode h o) gndNode smallCap,
   Element.cap s!"ac_ho_slow_gnd_{h}_{o}" (hoSlowNode h o) gndNode smallCap,
   Element.mosfet s!"ho_mf_pre_{h}_{o}" vddNode (hiddenNode h)
     (hoFastNode h o) gndNode s!"ho_nmos_{h}_{o}",
   Element.mosfet s!"ho_mf_post_{h}_{o}" vddNode (outputNode o)
     (hoFastNode h o) gndNode "nmos_learn",
   Element.mosfet s!"ho_mf_out_{h}_{o}" vddNode (hoFastNode h o)
     (outputNode o) gndNode "nmos_syn"]
  ++ (if ct = CellType.sram ∨ ct = CellType.dramRefreshed then
      [Element.res s!"ho_r_fast_{h}_{o}" (hoFastNode h o) gndNode
         (if ct = CellType.sram then 1000000000 else fRC.R * 5),
       Element.res s!"ho_r_slow_{h}_{o}" (hoSlowNode h o) gndNode
         (if ct = CellType.sram then 1000000000 else sRC.R * 5)]
    else
      [Element.res s!"ho_r_fast_{h}_{o}" (hoFastNode h o) gndNode fRC.R,
       Element.res s!"ho_r_slow_{h}_{o}" (hoSlowNode h o) gndNode sRC.R,
       Element.res s!"ho_leak_{h}_{o}" (hoFastNode h o) gndNode (fRC.R * 5)]
      ++ (if ct = CellType.dramNeighborCtrl then
          [Element.mosfet s!"ho_leak_ctrl_{h}_{o}" (hoFastNode h o)
             (hoFastNode h o) neighborModNode gndNode "nmos_leak_ctrl"]
        else []))
  ++ [Element.mosfet s!"ho_err_{h}_{o}" vddNode (errorNode o)
       (hoFastNode h o) gndNode "nmos_learn"]

/-- `build_circuit_for_learning` as the list of elements it adds, in source
order: global elements, then every input-to-hidden synapse, then every
hidden-to-output synapse. -/
def build_circuit_for_learning (nIn nHid nOut : ℕ) (ctIH ctHO : CellMatrix)
    (prm : CircuitParams) : List Element :=
  globalElements nIn nHid nOut
  ++ ((List.range nIn).flatMap fun i => (List.range nHid).flatMap fun h =>
      ihSynElements nOut i h (ctIH i h) (prm.ihFastRC i h) (prm.ihSlowRC i h))
  ++ ((List.range nHid).flatMap fun h => (List.range nOut).flatMap fun o =>
      hoSynElements h o (ctHO h o) (prm.hoFastRC h o) (prm.hoSlowRC h o))

/-- The declared nodes of the claim: layer nodes, per-synapse fast/slow
storage nodes, error nodes, and the neighbor-modulation node. -/
def declaredNodes (nIn nHid nOut : ℕ) : List String :=
  (List.range nIn).map inputNode
  ++ (List.range nHid).map hiddenNode
  ++ (List.range nOut).map outputNode
  ++ ((List.range nIn).flatMap fun i => (List.range nHid).flatMap fun h =>
      [ihFastNode i h, ihSlowNode i h])
  ++ ((List.range nHid).flatMap fun h => (List.range nOut).flatMap fun o =>
      [hoFastNode h o, hoSlowNode h o])
  ++ (List.range nOut).map errorNode
  ++ [neighborModNode]

/-- The declared nodes without the error nodes and the neighbor-modulation
node: layer nodes and synapse storage nodes. -/
def layerStorageNodes (nIn nHid nOut : ℕ) : List String :=
  (List.range nIn).map inputNode
  ++ (List.range nHid).map hiddenNode
  ++ (List.range nOut).map outputNode
  ++ ((List.range nIn).flatMap fun i => (List.range nHid).flatMap fun h =>
      [ihFastNode i h, ihSlowNode i h])
  ++ ((List.range nHid).flatMap fun h => (List.range nOut).flatMap fun o =>
      [hoFastNode h o, hoSlowNode h o])

/-- Whether an element is a capacitor with one terminal on node `n` and the
other on ground. -/
def isCapOn (n : String) : Element → Bool
  | Element.cap _ a b _ => (a == n && b == gndNode) || (b == n && a == gndNode)
  | _ => false

/-- Node `n` has at least one capacitive element binding it to ground. -/
def hasCapToGround (els : List Element) (n : String) : Bool :=
  els.any (isCapOn n)

/-- The gate (control) terminal of an element, when it is a MOSFET. -/
def gateOf : Element → Option String
  | Element.mosfet _ _ g _ _ _ => some g
  | _ => none

/-- A fixed `randomize_rc` draw used for concrete instantiations. -/
def constRC : RandRC := ⟨1, 1, 1⟩

/-- Constant random draws for concrete instantiations. -/
def constParams : CircuitParams :=
  ⟨fun _ _ => constRC, fun _ _ => constRC, fun _ _ => constRC,
   fun _ _ => constRC⟩

/-- An all-`dramNeighborCtrl` topology, for concrete instantiations. -/
def ncTopo : CellMatrix := fun _ _ => CellType.dramNeighborCtrl

/-! ### Simulation result and state extraction (lines 610-761) -/

/-- A successful transient analysis, as `analysis.time` and `analysis.nodes`
expose it: the time axis and the per-node voltage series. A failed
`run_simulation` returns Python `None` (lines 624-628), modelled as `none`
at the use sites. -/
structure Analysis where
  time : List ℚ
  nodes : List (String × List ℚ)
deriving DecidableEq, Repr

/-- Python `str.lower()` on node names, as a structurally recursive map so
that concrete instances evaluate. -/
def pyLower (s : String) : String := String.mk (s.data.map Char.toLower)

/-- `node in analysis.nodes` and `analysis.nodes[node].as_ndarray()`
combined: the series stored under a node name, if any. -/
def findNode (a : Analysis) (n : String) : Option (List ℚ) :=
  (a.nodes.find? (fun p => p.1 == n)).map Prod.snd

/-- The weight extracted for one synapse (lines 648-666): if the fast or the
slow node is missing from the result — or reading the final sample fails,
which the `except` branch also turns into a fallback — the supplied `rand`
value (one `np.random.uniform(0.1, 0.5)` draw) is used; otherwise the sum of
the two final voltages. -/
def extractWeight (rand : ℚ) (a : Analysis) (fastN slowN : String) : ℚ :=
  match findNode a fastN, findNode a slowN with
  | some vf, some vs =>
    match vf.getLast?, vs.getLast? with
    | some xf, some xs => xf + xs
    | _, _ => rand
  | _, _ => rand

/-- `extract_network_state` (lines 632-691): on a failed simulation (`none`)
both weight matrices are filled entirely from the supplied random sources
(`np.random.uniform(0.1, 0.5, shape)`); otherwise each entry is extracted
independently, falling back to its own random value when its nodes are
missing. Node names are lowercased as in the source. -/
def extract_network_state (nIn nHid nOut : ℕ) (randIH randHO : ℕ → ℕ → ℚ)
    (ihFast ihSlow hoFast hoSlow : ℕ → ℕ → String)
    (analysis : Option Analysis) : List (List ℚ) × List (List ℚ) :=
  match analysis with
  | none =>
    ((List.range nIn).map fun i => (List.range nHid).map fun h => randIH i h,
     (List.range nHid).map fun h => (List.range nOut).map fun o => randHO h o)
  | some a =>
    ((List.range nIn).map fun i => (List.range nHid).map fun h =>
        extractWeight (randIH i h) a (pyLower (ihFast i h)) (pyLower (ihSlow i h)),
     (List.range nHid).map fun h => (List.range nOut).map fun o =>
        extractWeight (randHO h o) a (pyLower (hoFast h o)) (pyLower (hoSlow h o)))

/-- Entry `(i, j)` of a row-major matrix. -/
def entry (m : List (List ℚ)) (i j : ℕ) : ℚ := (m.getD i []).getD j 0

/-- One layer of `extract_activity_over_time` on a successful result
(lines 738-759): for each node name, the node's stored series when present,
an all-zero column otherwise (the code fills columns of
`np.zeros((len(time_us), n))` and leaves missing nodes at zero). -/
def extractLayerActivity (a : Analysis) (nodeNames : List String) :
    List (List ℚ) :=
  nodeNames.map fun n =>
    match findNode a (pyLower n) with
    | some tr => tr
    | none => List.replicate a.time.length 0

/-- `extract_activity_over_time` (lines 693-761) on a successful result:
the time axis scaled to microseconds and the three layers' activity. (The
mock-data branch for a failed simulation, lines 696-728, is unreachable on
a successful result.) -/
def extract_activity_over_time (a : Analysis)
    (inputNodeNames hiddenNodeNames outputNodeNames : List String) :
    List ℚ × List (List ℚ) × List (List ℚ) × List (List ℚ) :=
  (a.time.map (fun t => t * 1000000),
   extractLayerActivity a inputNodeNames,
   extractLayerActivity a hiddenNodeNames,
   extractLayerActivity a outputNodeNames)

/-- The extraction contract of one layer: one column per declared node, a
copied series for present nodes, an all-zero column for absent nodes, and
one row per time sample. -/
def LayerExtractOk (a : Analysis) (nodeNames : List String)
    (cols : List (List ℚ)) : Prop :=
  cols.length = nodeNames.length ∧
  (∀ (k : ℕ) (n : String), nodeNames[k]? = some n →
    (findNode a (pyLower n) = none →
      cols[k]? = some (List.replicate a.time.length 0)) ∧
    (∀ tr, findNode a (pyLower n) = some tr → cols[k]? = some tr)) ∧
  (∀ col ∈ cols, col.length = a.time.length)

/-! ### Performance evaluation (`calculate_performance`, lines 763-804) -/

/-- Python `int()`: truncation toward zero. -/
def pyTrunc (x : ℚ) : ℤ := if 0 ≤ x then ⌊x⌋ else -⌊-x⌋

/-- Auxiliary state of `argmax`: remaining list, next index, best index,
best value. -/
def argmaxAux : List ℚ → ℕ → ℕ → ℚ → ℕ
  | [], _, bi, _ => bi
  | x :: xs, i, bi, bv =>
    if bv < x then argmaxAux xs (i + 1) i x else argmaxAux xs (i + 1) bi bv

/-- `np.argmax`: index of the first maximal entry (the empty case is never
reached by the callers). -/
def argmax : List ℚ → ℕ
  | [] => 0
  | x :: xs => argmaxAux xs 1 0 x

/-- Elementwise sum of two rows. -/
def addRows (r1 r2 : List ℚ) : List ℚ := r1.zipWith (· + ·) r2

/-- `np.mean(rows, axis=0)`: column-wise mean of a list of rows. -/
def meanRows (rows : List (List ℚ)) : List ℚ :=
  match rows with
  | [] => []
  | r :: rs => (rs.foldl addRows r).map (fun x => x / (rows.length : ℚ))

/-- `calculate_performance` (lines 763-804): with fewer than 2 time samples
the degenerate `(0.0, [False]*len(targets))` is returned; otherwise each
pattern's prediction is the argmax of the output activity averaged over the
first half of its time window, compared with the argmax of its target. -/
def calculate_performance (output_activity targets : List (List ℚ))
    (time_us : List ℚ) (phase_duration : ℚ) : ℚ × List Bool :=
  if time_us.length ≤ 1 then (0, List.replicate targets.length false)
  else
    let dt := time_us.getD 1 0 - time_us.getD 0 0
    let tpp : ℤ := max 1 (pyTrunc (phase_duration / dt))
    let accs := (List.range targets.length).map (fun (p : ℕ) =>
      let start : ℤ := min ((p : ℤ) * tpp) ((output_activity.length : ℤ) - 1)
      let stop : ℤ :=
        min (start + pyTrunc ((tpp : ℚ) * (1 / 2)))
          ((output_activity.length : ℤ) - 1)
      if start ≥ stop then false
      else
        let avg := meanRows
          ((output_activity.drop start.toNat).take (stop - start).toNat)
        argmax avg == argmax (targets.getD p []))
    (if accs.isEmpty then 0 else (accs.count true : ℚ) / accs.length, accs)

/-! ### Learning loop (`run_learning_experiment`, lines 988-1093) -/

/-- The environment of one run: layer sizes, training targets, the
simulation driver's outcome for each learning step (`none` models
`run_simulation` returning `None` on failure), and the per-step random
fallback sources consumed by extraction. -/
structure ExperimentEnv where
  nIn : ℕ
  nHid : ℕ
  nOut : ℕ
  trainTargets : List (List ℚ)
  sim : ℕ → Option Analysis
  randIH : ℕ → ℕ → ℕ → ℚ
  randHO : ℕ → ℕ → ℕ → ℚ

/-- One learning step of the loop body (lines 1004-1034). Line 1017
iterates `analysis.nodes` unconditionally right after `run_simulation`;
when the simulation failed (`None`) this raises `AttributeError`, modelled
as `Except.error` — extraction is never reached in that case. -/
def runStep (env : ExperimentEnv) (step : ℕ) :
    Except String (List (List ℚ) × List (List ℚ) × ℚ) :=
  match env.sim step with
  | none =>
    Except.error "AttributeError: NoneType object has no attribute nodes"
  | some a =>
    let w := extract_network_state env.nIn env.nHid env.nOut
      (env.randIH step) (env.randHO step) ihFastNode ihSlowNode hoFastNode
      hoSlowNode (some a)
    let act := extract_activity_over_time a
      ((List.range env.nIn).map inputNode)
      ((List.range env.nHid).map hiddenNode)
      ((List.range env.nOut).map outputNode)
    let perf := calculate_performance act.2.2.2 env.trainTargets act.1 20
    Except.ok (w.1, w.2, perf.1)

/-- The loop over learning steps: run `n` steps starting at `step`,
appending each step's accuracy and weight matrices to the histories; an
uncaught exception aborts the whole run. -/
def runSteps (env : ExperimentEnv) :
    ℕ → ℕ → List ℚ × List (List (List ℚ)) × List (List (List ℚ)) →
    Except String (List ℚ × List (List (List ℚ)) × List (List (List ℚ)))
  | 0, _, st => Except.ok st
  | n + 1, step, st =>
    match runStep env step with
    | Except.error e => Except.error e
    | Except.ok (ihW, hoW, acc) =>
      runSteps env n (step + 1)
        (st.1 ++ [acc], st.2.1 ++ [ihW], st.2.2 ++ [hoW])

/-- `run_learning_experiment` (lines 988-1093): histories start with the
initial random weight entries (lines 997-998), then the loop runs
`LEARNING_STEPS` steps. -/
def run_learning_experiment (env : ExperimentEnv) (numSteps : ℕ)
    (initIH initHO : List (List ℚ)) :
    Except String (List ℚ × List (List (List ℚ)) × List (List (List ℚ))) :=
  runSteps env numSteps 0 ([], [initIH], [initHO])

/-! ## Theorems -/

lemma update2_apply (m : CellMatrix) (r c r' c' : ℕ) (v : CellType) :
    update2 m r c v r' c' = if r' = r ∧ c' = c then v else m r' c' := rfl

lemma markDiagonal_apply (d : ℕ) (r c : ℕ) :
    markDiagonal d initMatrix r c =
      if r = c ∧ r < d then CellType.sram else CellType.dramLeaky := by
  induction d with
  | zero => simp [markDiagonal, initMatrix]
  | succ n ih =>
    have hstep : markDiagonal (n + 1) initMatrix =
        update2 (markDiagonal n initMatrix) n n CellType.sram := by
      simp [markDiagonal, List.range_succ]
    rw [hstep, update2_apply, ih]
    by_cases h2 : r = c
    · subst h2
      by_cases h1 : r = n
      · subst h1; simp
      · have hiff : (r < n) = (r < n + 1) := by
          apply propext; omega
        simp [h1, hiff]
    · have h1 : ¬ (r = n ∧ c = n) := by
        rintro ⟨hr, hcn⟩; exact h2 (hr.trans hcn.symm)
      simp [h2, h1]

/-- The refreshed pass never creates nor destroys an SRAM entry. -/
lemma applyRefreshed_sram_iff (d2 : ℕ) (idx : List ℕ) (m : CellMatrix)
    (r c : ℕ) :
    applyRefreshed d2 idx m r c = CellType.sram ↔ m r c = CellType.sram := by
  induction idx generalizing m with
  | nil => simp [applyRefreshed]
  | cons i is ih =>
    show applyRefreshed d2 is _ r c = _ ↔ _
    rw [ih]
    by_cases hg : m (i / d2) (i % d2) ≠ CellType.sram
    · simp only [if_pos hg, update2_apply]
      by_cases hp : r = i / d2 ∧ c = i % d2
      · obtain ⟨hr, hc⟩ := hp
        subst hr; subst hc
        simp only [and_self, if_pos trivial]
        constructor
        · intro h; cases h
        · intro h; exact absurd h hg
      · simp [hp]
    · simp [if_neg hg]

/-- One column of the neighbor-controlled pass never creates nor destroys an
SRAM entry. -/
lemma neighborCol_sram_iff (c0 : ℕ) (rs : List ℕ) (m : CellMatrix) (r c : ℕ) :
    rs.foldl
      (fun m r' =>
        if m r' c0 ≠ CellType.sram then
          update2 m r' c0 CellType.dramNeighborCtrl
        else m)
      m r c = CellType.sram ↔ m r c = CellType.sram := by
  induction rs generalizing m with
  | nil => simp
  | cons j js ih =>
    rw [List.foldl_cons, ih]
    by_cases hg : m j c0 ≠ CellType.sram
    · simp only [if_pos hg, update2_apply]
      by_cases hp : r = j ∧ c = c0
      · obtain ⟨hr, hc⟩ := hp
        subst hr; subst hc
        simp only [and_self, if_pos trivial]
        constructor
        · intro h; cases h
        · intro h; exact absurd h hg
      · simp [hp]
    · simp [if_neg hg]

/-- The neighbor-controlled pass never creates nor destroys an SRAM entry. -/
lemma applyNeighborCtrl_sram_iff (choices : List (ℕ × List ℕ)) (m : CellMatrix)
    (r c : ℕ) :
    applyNeighborCtrl choices m r c = CellType.sram ↔ m r c = CellType.sram := by
  induction choices generalizing m with
  | nil => simp [applyNeighborCtrl]
  | cons pc pcs ih =>
    have hstep : applyNeighborCtrl (pc :: pcs) m =
        applyNeighborCtrl pcs
          (pc.2.foldl
            (fun m r' =>
              if m r' pc.1 ≠ CellType.sram then
                update2 m r' pc.1 CellType.dramNeighborCtrl
              else m)
            m) := rfl
    rw [hstep, ih, neighborCol_sram_iff]

/-- Characterisation: after all passes an entry is SRAM exactly when it lies
on the diagonal below `min d1 d2`. -/
lemma assignLayerCellTypes_sram_iff (d1 d2 : ℕ) (refreshedIdx : List ℕ)
    (neighborChoices : List (ℕ × List ℕ)) (r c : ℕ) :
    assignLayerCellTypes d1 d2 refreshedIdx neighborChoices r c = CellType.sram ↔
      r = c ∧ r < min d1 d2 := by
  unfold assignLayerCellTypes
  rw [applyNeighborCtrl_sram_iff, applyRefreshed_sram_iff, markDiagonal_apply]
  by_cases h : r = c ∧ r < min d1 d2 <;> simp [h]

/-- C4: for every generated topology (any dimensions, any random index
choices), the cell-type matrix contains exactly `min d1 d2` Stable (SRAM)
entries, all on the diagonal, and no entry assigned Stable by the diagonal
pass is ever reassigned by the later random passes. -/
theorem C4_stable_diagonal_invariant (d1 d2 : ℕ) (refreshedIdx : List ℕ)
    (neighborChoices : List (ℕ × List ℕ)) :
    sramCount d1 d2 (assignLayerCellTypes d1 d2 refreshedIdx neighborChoices) =
        min d1 d2 ∧
    (∀ r c,
      assignLayerCellTypes d1 d2 refreshedIdx neighborChoices r c =
        CellType.sram → r = c) ∧
    (∀ r c,
      markDiagonal (min d1 d2) initMatrix r c = CellType.sram →
      assignLayerCellTypes d1 d2 refreshedIdx neighborChoices r c =
        CellType.sram) := by
  have hiff := assignLayerCellTypes_sram_iff d1 d2 refreshedIdx neighborChoices
  refine ⟨?_, ?_, ?_⟩
  · unfold sramCount
    have hset :
        ((Finset.range d1 ×ˢ Finset.range d2).filter
          (fun p =>
            assignLayerCellTypes d1 d2 refreshedIdx neighborChoices p.1 p.2 =
              CellType.sram)) =
        (Finset.range (min d1 d2)).image (fun i => (i, i)) := by
      ext p
      constructor
      · intro hp
        rw [Finset.mem_filter] at hp
        obtain ⟨hmem, hsram⟩ := hp
        rw [hiff] at hsram
        rw [Finset.mem_image]
        refine ⟨p.1, Finset.mem_range.mpr hsram.2, ?_⟩
        obtain ⟨a, b⟩ := p
        obtain ⟨h1, h2⟩ := hsram
        simp only at h1
        subst h1
        rfl
      · intro hp
        rw [Finset.mem_image] at hp
        obtain ⟨i, hi, hpi⟩ := hp
        rw [Finset.mem_range] at hi
        subst hpi
        rw [Finset.mem_filter]
        constructor
        · rw [Finset.mem_product]
          constructor <;> rw [Finset.mem_range] <;> omega
        · rw [hiff]
          exact ⟨rfl, hi⟩
    rw [hset]
    rw [Finset.card_image_of_injective _ (fun a b h => congrArg Prod.fst h)]
    exact Finset.card_range _
  · intro r c h
    exact ((hiff r c).mp h).1
  · intro r c h
    rw [markDiagonal_apply] at h
    by_cases hd : r = c ∧ r < min d1 d2
    · exact (hiff r c).mpr hd
    · rw [if_neg hd] at h
      cases h

lemma sigOk_init (nIn nOut : ℕ) : SigOk nIn nOut (sigInit nIn nOut) := by
  refine ⟨rfl, List.chain'_singleton 0, by simp [sigInit], by simp [sigInit],
    ?_, ?_, rfl⟩
  · intro l hl
    simp only [sigInit] at hl
    rw [List.eq_of_mem_replicate hl]
    rfl
  · intro l hl
    simp only [sigInit] at hl
    rw [List.eq_of_mem_replicate hl]
    rfl

lemma sigOk_pushAll {nIn nOut : ℕ} {s : SigState} (hok : SigOk nIn nOut s)
    {dt : ℚ} (hdt : 0 < dt) (f g : ℕ → List ℚ → ℚ) (hn : List ℚ → ℚ) :
    SigOk nIn nOut (pushAll s dt f g hn) ∧
      (pushAll s dt f g hn).T.length = s.T.length + 1 := by
  obtain ⟨hlast, hchain, hlin, hlerr, hmin, hmerr, hnm⟩ := hok
  have hTlen : (pushAll s dt f g hn).T.length = s.T.length + 1 := by
    simp [pushAll]
  refine ⟨⟨?_, ?_, ?_, ?_, ?_, ?_, ?_⟩, hTlen⟩
  · exact List.getLast?_concat _
  · show List.Chain' (· < ·) (s.T ++ [s.tCurrent + dt])
    rw [List.chain'_append]
    refine ⟨hchain, List.chain'_singleton _, ?_⟩
    intro x hx y hy
    rw [hlast] at hx
    simp only [Option.mem_def, Option.some_inj] at hx
    simp only [List.head?_cons, Option.mem_def, Option.some_inj] at hy
    subst hx; subst hy
    linarith
  · simpa [pushAll] using hlin
  · simpa [pushAll] using hlerr
  · intro l hl
    simp only [pushAll, List.mem_mapIdx] at hl
    obtain ⟨i, hi, hval⟩ := hl
    rw [← hval, List.length_append, hmin _ (List.getElem_mem hi), hTlen]
    rfl
  · intro l hl
    simp only [pushAll, List.mem_mapIdx] at hl
    obtain ⟨i, hi, hval⟩ := hl
    rw [← hval, List.length_append, hmerr _ (List.getElem_mem hi), hTlen]
    rfl
  · simp only [pushAll, List.length_append, hnm, hTlen]
    rfl

lemma timeStep_pos : (0 : ℚ) < timeStep := by norm_num [timeStep]

lemma phaseDur_sub_pos : (0 : ℚ) < phaseDur - timeStep := by
  norm_num [phaseDur, timeStep]

lemma phaseDur_pos : (0 : ℚ) < phaseDur := by norm_num [phaseDur]

lemma pushAll_T_length (s : SigState) (dt : ℚ) (f g : ℕ → List ℚ → ℚ)
    (hn : List ℚ → ℚ) : (pushAll s dt f g hn).T.length = s.T.length + 1 := by
  simp [pushAll]

lemma processPattern_T_length (es ins : ℚ) (pattern target : List ℕ)
    (s : SigState) :
    (processPattern es ins pattern target s).T.length = s.T.length + 10 := by
  simp only [processPattern, pushAll_T_length]

lemma sigOk_processPattern {nIn nOut : ℕ} {s : SigState}
    (hok : SigOk nIn nOut s) (es ins : ℚ) (pattern target : List ℕ) :
    SigOk nIn nOut (processPattern es ins pattern target s) := by
  have h1 := (sigOk_pushAll hok timeStep_pos
    (fun i _ => if pattern.getD i 0 > 0 then vddSig * presentStrength else 0)
    chZero nmZero).1
  have h2 := (sigOk_pushAll h1 phaseDur_sub_pos chHold chZero nmZero).1
  have h3 := (sigOk_pushAll h2 timeStep_pos chZero chZero nmZero).1
  have h4 := (sigOk_pushAll h3 phaseDur_sub_pos chZero chZero nmZero).1
  have h5 := (sigOk_pushAll h4 timeStep_pos chZero
    (fun o _ =>
      if target.getD o 0 > 0 then -es * vddSig else es * vddSig * (1 / 2))
    (fun _ => ins * vddSig)).1
  have h6 := (sigOk_pushAll h5 phaseDur_sub_pos chZero chHold nmHold).1
  have h7 := (sigOk_pushAll h6 timeStep_pos chZero chZero nmHold).1
  have h8 := (sigOk_pushAll h7 phaseDur_sub_pos chZero chZero nmHold).1
  have h9 := (sigOk_pushAll h8 timeStep_pos chZero chZero nmZero).1
  exact (sigOk_pushAll h9 phaseDur_sub_pos chZero chZero nmZero).1

lemma sigOk_foldPatterns {nIn nOut : ℕ} (es ins : ℚ) :
    ∀ (pts : List (List ℕ × List ℕ)) (s : SigState), SigOk nIn nOut s →
      SigOk nIn nOut
        (pts.foldl (fun s pt => processPattern es ins pt.1 pt.2 s) s) ∧
      (pts.foldl (fun s pt => processPattern es ins pt.1 pt.2 s) s).T.length =
        s.T.length + 10 * pts.length
  | [], s, h => ⟨h, by simp⟩
  | pt :: pts, s, h => by
    rw [List.foldl_cons]
    have hrec := sigOk_foldPatterns es ins pts
      (processPattern es ins pt.1 pt.2 s)
      (sigOk_processPattern h es ins pt.1 pt.2)
    refine ⟨hrec.1, ?_⟩
    rw [hrec.2, processPattern_T_length, List.length_cons]
    ring

/-- C2: for every training set of `T` patterns (any learning step, any layer
sizes), the stimulus generator produces exactly `10*T + 2` time samples, the
time stamps are strictly increasing, and every channel (each input line, each
error line, and the neighbor-modulation line) carries exactly one value per
time sample; in particular `T = 0` yields only the 2 global rest samples. -/
theorem C2_stimulus_sample_count (nIn nOut : ℕ)
    (trainPatterns trainTargets : List (List ℕ)) (learning_step : ℕ)
    (hlen : trainPatterns.length = trainTargets.length) :
    (generate_simulation_signals nIn nOut trainPatterns trainTargets
        learning_step).T.length = 10 * trainPatterns.length + 2 ∧
    List.Chain' (· < ·)
      (generate_simulation_signals nIn nOut trainPatterns trainTargets
        learning_step).T ∧
    (generate_simulation_signals nIn nOut trainPatterns trainTargets
        learning_step).Vinputs.length = nIn ∧
    (generate_simulation_signals nIn nOut trainPatterns trainTargets
        learning_step).Verrors.length = nOut ∧
    (∀ l ∈ (generate_simulation_signals nIn nOut trainPatterns trainTargets
        learning_step).Vinputs, l.length = 10 * trainPatterns.length + 2) ∧
    (∀ l ∈ (generate_simulation_signals nIn nOut trainPatterns trainTargets
        learning_step).Verrors, l.length = 10 * trainPatterns.length + 2) ∧
    (generate_simulation_signals nIn nOut trainPatterns trainTargets
        learning_step).VneighborMod.length = 10 * trainPatterns.length + 2 := by
  simp only [generate_simulation_signals]
  have hfold := @sigOk_foldPatterns nIn nOut
    (errorStrength learning_step) (inhibitStrength learning_step)
    (trainPatterns.zip trainTargets) (sigInit nIn nOut) (sigOk_init nIn nOut)
  have hpush := sigOk_pushAll hfold.1 phaseDur_pos chZero chZero nmZero
  have hziplen : (trainPatterns.zip trainTargets).length =
      trainPatterns.length := by
    rw [List.length_zip, hlen, min_self]
  have hT : (pushAll
      ((trainPatterns.zip trainTargets).foldl
        (fun s pt =>
          processPattern (errorStrength learning_step)
            (inhibitStrength learning_step) pt.1 pt.2 s)
        (sigInit nIn nOut))
      phaseDur chZero chZero nmZero).T.length = 10 * trainPatterns.length + 2 := by
    rw [hpush.2, hfold.2, hziplen]
    simp [sigInit]
    ring
  obtain ⟨_, hchain, hlin, hlerr, hmin, hmerr, hnm⟩ := hpush.1
  refine ⟨hT, hchain, hlin, hlerr, ?_, ?_, ?_⟩
  · intro l hl
    rw [hmin l hl]
    exact hT
  · intro l hl
    rw [hmerr l hl]
    exact hT
  · rw [hnm]
    exact hT

/-- Witness for C2 at a concrete one-pattern training set. -/
theorem C2_stimulus_sample_count_witness :
    (generate_simulation_signals 2 2 [[1, 0]] [[1, 0]] 0).T.length = 12 := by
  have h := (C2_stimulus_sample_count 2 2 [[1, 0]] [[1, 0]] 0 rfl).1
  simpa using h

lemma pushAll_verrors_getElem {s : SigState} {o : ℕ} {l : List ℚ}
    (h : s.Verrors[o]? = some l) (dt : ℚ) (f g : ℕ → List ℚ → ℚ)
    (hn : List ℚ → ℚ) :
    (pushAll s dt f g hn).Verrors[o]? = some (l ++ [g o l]) := by
  simp [pushAll, h]

lemma pushAll_vnm (s : SigState) (dt : ℚ) (f g : ℕ → List ℚ → ℚ)
    (hn : List ℚ → ℚ) :
    (pushAll s dt f g hn).VneighborMod =
      s.VneighborMod ++ [hn s.VneighborMod] := rfl

/-- The ten values appended to input channel `i` by one pattern: the
pattern-dependent drive during Present (edge and hold), zero from Forward
through Rest. -/
lemma processPattern_vinputs (es ins : ℚ) (pattern target : List ℕ)
    (s : SigState) (i : ℕ) (l : List ℚ) (h : s.Vinputs[i]? = some l) :
    (processPattern es ins pattern target s).Vinputs[i]? =
      some (l ++ [
        if pattern.getD i 0 > 0 then vddSig * presentStrength else 0,
        if pattern.getD i 0 > 0 then vddSig * presentStrength else 0,
        0, 0, 0, 0, 0, 0, 0, 0]) := by
  simp [processPattern, pushAll, h, chZero, chHold, nmZero, nmHold,
    List.getLastD_concat]

/-- The ten values appended to error channel `o` by one pattern: zero during
Present and Forward, the error value during ErrorFeedback, zero during
Update and Rest. -/
lemma processPattern_verrors (es ins : ℚ) (pattern target : List ℕ)
    (s : SigState) (o : ℕ) (l : List ℚ) (h : s.Verrors[o]? = some l) :
    (processPattern es ins pattern target s).Verrors[o]? =
      some (l ++ [0, 0, 0, 0,
        if target.getD o 0 > 0 then -es * vddSig else es * vddSig * (1 / 2),
        if target.getD o 0 > 0 then -es * vddSig else es * vddSig * (1 / 2),
        0, 0, 0, 0]) := by
  simp [processPattern, pushAll, h, chZero, chHold, nmZero, nmHold,
    List.getLastD_concat]

/-- The ten values appended to the neighbor-modulation channel by one
pattern: zero until ErrorFeedback, the inhibition value during ErrorFeedback
and Update, zero during Rest. -/
lemma processPattern_vnm (es ins : ℚ) (pattern target : List ℕ)
    (s : SigState) :
    (processPattern es ins pattern target s).VneighborMod =
      s.VneighborMod ++ [0, 0, 0, 0, ins * vddSig, ins * vddSig,
        ins * vddSig, ins * vddSig, 0, 0] := by
  simp [processPattern, pushAll, chZero, chHold, nmZero, nmHold,
    List.getLastD_concat]

lemma errorStrength_pos {learning_step : ℕ} (hstep : learning_step < 5) :
    0 < errorStrength learning_step := by
  have hls : (learning_step : ℚ) ≤ 4 := by
    exact_mod_cast Nat.le_of_lt_succ hstep
  have hmul : (2 / 10 : ℚ) * learning_step ≤ (2 / 10) * 4 :=
    mul_le_mul_of_nonneg_left hls (by norm_num)
  unfold errorStrength learningRateBase
  linarith

lemma inhibitStrength_pos (learning_step : ℕ) :
    0 < inhibitStrength learning_step := by
  unfold inhibitStrength lateralInhibitStrength
  positivity

/-- C8 (amended): for every training pattern and every learning step below 5
(while the linearly decaying error strength is still positive), during
ErrorFeedback each error channel is driven to a negative value when the
target bit is 1 and to a smaller positive value when it is 0, while the
neighbor-modulation channel is driven to a positive value and the input
channels are at 0; during Update the error channels return to 0 while the
neighbor-modulation channel holds its prior value; during Rest all channels
— input, error, and neighbor-modulation — return to 0 (the last two samples
of every channel's per-pattern trajectory are 0). -/
theorem C8_error_feedback_phase_values (learning_step : ℕ)
    (hstep : learning_step < 5) (pattern target : List ℕ) (s : SigState)
    (i o : ℕ) (li l : List ℚ) (hin : s.Vinputs[i]? = some li)
    (h : s.Verrors[o]? = some l) :
    ∃ pv ev em : ℚ,
      (processPattern (errorStrength learning_step)
          (inhibitStrength learning_step) pattern target s).Vinputs[i]? =
        some (li ++ [pv, pv, 0, 0, 0, 0, 0, 0, 0, 0]) ∧
      (processPattern (errorStrength learning_step)
          (inhibitStrength learning_step) pattern target s).Verrors[o]? =
        some (l ++ [0, 0, 0, 0, ev, ev, 0, 0, 0, 0]) ∧
      (processPattern (errorStrength learning_step)
          (inhibitStrength learning_step) pattern target s).VneighborMod =
        s.VneighborMod ++ [0, 0, 0, 0, em, em, em, em, 0, 0] ∧
      (target.getD o 0 > 0 → ev < 0) ∧
      (target.getD o 0 = 0 →
        0 < ev ∧ ev < errorStrength learning_step * vddSig) ∧
      0 < em := by
  have hes := errorStrength_pos hstep
  have hvdd : (0 : ℚ) < vddSig := by norm_num [vddSig]
  refine ⟨_, _, _,
    processPattern_vinputs _ _ pattern target s i li hin,
    processPattern_verrors _ _ pattern target s o l h,
    processPattern_vnm _ _ pattern target s, ?_, ?_, ?_⟩
  · intro ht
    rw [if_pos ht]
    nlinarith
  · intro ht
    rw [if_neg (by omega)]
    constructor
    · positivity
    · nlinarith
  · have := inhibitStrength_pos learning_step
    positivity

/-- C8 counterexample: at learning step 5 the decayed error strength
`1 - 0.2*5` is zero, so during ErrorFeedback an error channel whose target
bit is 1 is driven to 0, not to a negative value as the claim states for
every learning step. -/
theorem C8_counterexample :
    (((processPattern (errorStrength 5) (inhibitStrength 5) [1] [1]
        (sigInit 1 1)).Verrors[0]?.getD []).getD 5 0 = 0) ∧
    ¬ (((processPattern (errorStrength 5) (inhibitStrength 5) [1] [1]
        (sigInit 1 1)).Verrors[0]?.getD []).getD 5 0 < 0) := by
  have h : (sigInit 1 1).Verrors[0]? = some [0] := rfl
  have hv := processPattern_verrors (errorStrength 5) (inhibitStrength 5)
    [1] [1] (sigInit 1 1) 0 [0] h
  rw [hv]
  norm_num [errorStrength, learningRateBase, vddSig]

/-- Witness for C8 (amended) at learning step 0 with a concrete pattern. -/
theorem C8_error_feedback_phase_values_witness :
    (0 : ℕ) < 5 ∧
    ∃ pv ev em : ℚ,
      (processPattern (errorStrength 0) (inhibitStrength 0) [1, 0] [1, 0]
          (sigInit 2 2)).Vinputs[0]? =
        some ([0] ++ [pv, pv, 0, 0, 0, 0, 0, 0, 0, 0]) ∧
      (processPattern (errorStrength 0) (inhibitStrength 0) [1, 0] [1, 0]
          (sigInit 2 2)).Verrors[0]? =
        some ([0] ++ [0, 0, 0, 0, ev, ev, 0, 0, 0, 0]) ∧
      (processPattern (errorStrength 0) (inhibitStrength 0) [1, 0] [1, 0]
          (sigInit 2 2)).VneighborMod =
        (sigInit 2 2).VneighborMod ++ [0, 0, 0, 0, em, em, em, em, 0, 0] ∧
      (([1, 0] : List ℕ).getD 0 0 > 0 → ev < 0) ∧
      (([1, 0] : List ℕ).getD 0 0 = 0 →
        0 < ev ∧ ev < errorStrength 0 * vddSig) ∧
      0 < em :=
  ⟨by decide,
    C8_error_feedback_phase_values 0 (by decide) [1, 0] [1, 0]
      (sigInit 2 2) 0 0 [0] [0] rfl rfl⟩

lemma hasCapToGround_of_mem {els : List Element} {n : String} {e : Element}
    (he : e ∈ els) (hc : isCapOn n e = true) : hasCapToGround els n = true :=
  List.any_eq_true.mpr ⟨e, he, hc⟩

lemma isCapOn_self (nm n : String) (v : ℚ) :
    isCapOn n (Element.cap nm n gndNode v) = true := by
  simp [isCapOn]

lemma hasCap_append_left {A : List Element} (B : List Element) {n : String}
    (h : hasCapToGround A n = true) : hasCapToGround (A ++ B) n = true := by
  unfold hasCapToGround at h ⊢
  rw [List.any_append, h, Bool.true_or]

lemma hasCap_append_right (A : List Element) {B : List Element} {n : String}
    (h : hasCapToGround B n = true) : hasCapToGround (A ++ B) n = true := by
  unfold hasCapToGround at h ⊢
  rw [List.any_append, h, Bool.or_true]

lemma mem_build_ih {nIn nHid nOut : ℕ} {ctIH ctHO : CellMatrix}
    {prm : CircuitParams} {i h : ℕ} {e : Element} (hi : i < nIn)
    (hh : h < nHid)
    (he : e ∈ ihSynElements nOut i h (ctIH i h) (prm.ihFastRC i h)
      (prm.ihSlowRC i h)) :
    e ∈ build_circuit_for_learning nIn nHid nOut ctIH ctHO prm := by
  unfold build_circuit_for_learning
  refine List.mem_append_left _ (List.mem_append_right _ ?_)
  exact List.mem_flatMap.mpr ⟨i, List.mem_range.mpr hi,
    List.mem_flatMap.mpr ⟨h, List.mem_range.mpr hh, he⟩⟩

lemma mem_build_ho {nIn nHid nOut : ℕ} {ctIH ctHO : CellMatrix}
    {prm : CircuitParams} {h o : ℕ} {e : Element} (hh : h < nHid)
    (ho : o < nOut)
    (he : e ∈ hoSynElements h o (ctHO h o) (prm.hoFastRC h o)
      (prm.hoSlowRC h o)) :
    e ∈ build_circuit_for_learning nIn nHid nOut ctIH ctHO prm := by
  unfold build_circuit_for_learning
  refine List.mem_append_right _ ?_
  exact List.mem_flatMap.mpr ⟨h, List.mem_range.mpr hh,
    List.mem_flatMap.mpr ⟨o, List.mem_range.mpr ho, he⟩⟩

lemma mem_build_global {nIn nHid nOut : ℕ} {ctIH ctHO : CellMatrix}
    {prm : CircuitParams} {e : Element}
    (he : e ∈ globalElements nIn nHid nOut) :
    e ∈ build_circuit_for_learning nIn nHid nOut ctIH ctHO prm := by
  unfold build_circuit_for_learning
  exact List.mem_append_left _ (List.mem_append_left _ he)

/-- C3 counterexample: in the concrete 1-input/1-hidden/1-output build,
`error_0` is a declared node but no capacitive element binds it to ground
(the error nodes receive only a series and a pull-down resistor). -/
theorem C3_counterexample :
    errorNode 0 ∈ declaredNodes 1 1 1 ∧
    hasCapToGround
      (build_circuit_for_learning 1 1 1 initMatrix initMatrix constParams)
      (errorNode 0) = false := by
  constructor
  · decide
  · decide

/-- C3 (amended): every layer node (input, hidden, output) and every synapse
fast/slow storage node of every build has at least one capacitive element to
ground; the auxiliary error nodes and the neighbor-modulation node are the
exception — they are driven through sources and resistors and get no
capacitor (see `C3_counterexample`). -/
theorem C3_no_floating_layer_or_storage_node (nIn nHid nOut : ℕ)
    (ctIH ctHO : CellMatrix) (prm : CircuitParams) :
    ∀ n ∈ layerStorageNodes nIn nHid nOut,
      hasCapToGround
        (build_circuit_for_learning nIn nHid nOut ctIH ctHO prm) n = true := by
  intro n hn
  unfold layerStorageNodes at hn
  simp only [List.mem_append] at hn
  rcases hn with ((((hn | hn) | hn) | hn) | hn)
  · obtain ⟨i, hi, rfl⟩ := List.mem_map.mp hn
    rw [List.mem_range] at hi
    have hchunk : hasCapToGround
        ((List.range nIn).map
          (fun i => Element.cap s!"input_{i}_gnd_cap" (inputNode i) gndNode
            smallCap)) (inputNode i) = true :=
      List.any_eq_true.mpr ⟨_, List.mem_map.mpr ⟨i, List.mem_range.mpr hi,
        rfl⟩, isCapOn_self _ _ _⟩
    have hglob : hasCapToGround (globalElements nIn nHid nOut)
        (inputNode i) = true := by
      unfold globalElements
      exact hasCap_append_left _ (hasCap_append_left _ (hasCap_append_left _
        (hasCap_append_left _ (hasCap_append_left _ (hasCap_append_left _
        (hasCap_append_left _ (hasCap_append_right _ hchunk)))))))
    unfold build_circuit_for_learning
    exact hasCap_append_left _ (hasCap_append_left _ hglob)
  · obtain ⟨h, hh, rfl⟩ := List.mem_map.mp hn
    rw [List.mem_range] at hh
    have hchunk : hasCapToGround
        ((List.range nHid).map
          (fun h => Element.cap s!"hidden_{h}_gnd_cap" (hiddenNode h) gndNode
            smallCap)) (hiddenNode h) = true :=
      List.any_eq_true.mpr ⟨_, List.mem_map.mpr ⟨h, List.mem_range.mpr hh,
        rfl⟩, isCapOn_self _ _ _⟩
    have hglob : hasCapToGround (globalElements nIn nHid nOut)
        (hiddenNode h) = true := by
      unfold globalElements
      exact hasCap_append_left _ (hasCap_append_left _ (hasCap_append_left _
        (hasCap_append_left _ (hasCap_append_left _ (hasCap_append_left _
        (hasCap_append_right _ hchunk))))))
    unfold build_circuit_for_learning
    exact hasCap_append_left _ (hasCap_append_left _ hglob)
  · obtain ⟨o, ho, rfl⟩ := List.mem_map.mp hn
    rw [List.mem_range] at ho
    have hchunk : hasCapToGround
        ((List.range nOut).map
          (fun o => Element.cap s!"output_{o}_gnd_cap" (outputNode o) gndNode
            smallCap)) (outputNode o) = true :=
      List.any_eq_true.mpr ⟨_, List.mem_map.mpr ⟨o, List.mem_range.mpr ho,
        rfl⟩, isCapOn_self _ _ _⟩
    have hglob : hasCapToGround (globalElements nIn nHid nOut)
        (outputNode o) = true := by
      unfold globalElements
      exact hasCap_append_left _ (hasCap_append_left _ (hasCap_append_left _
        (hasCap_append_left _ (hasCap_append_left _
        (hasCap_append_right _ hchunk)))))
    unfold build_circuit_for_learning
    exact hasCap_append_left _ (hasCap_append_left _ hglob)
  · simp only [List.mem_flatMap, List.mem_range, List.mem_cons,
      List.mem_singleton, List.not_mem_nil, or_false] at hn
    obtain ⟨i, hi, h, hh, hcase⟩ := hn
    rcases hcase with rfl | rfl
    · have hmem : Element.cap s!"ac_ih_fast_{i}_{h}" (ihFastNode i h) gndNode
          (prm.ihFastRC i h).C ∈ ihSynElements nOut i h (ctIH i h)
          (prm.ihFastRC i h) (prm.ihSlowRC i h) := by
        simp [ihSynElements]
      exact hasCapToGround_of_mem (mem_build_ih hi hh hmem)
        (isCapOn_self _ _ _)
    · have hmem : Element.cap s!"ac_ih_slow_{i}_{h}" (ihSlowNode i h) gndNode
          (prm.ihSlowRC i h).C ∈ ihSynElements nOut i h (ctIH i h)
          (prm.ihFastRC i h) (prm.ihSlowRC i h) := by
        simp [ihSynElements]
      exact hasCapToGround_of_mem (mem_build_ih hi hh hmem)
        (isCapOn_self _ _ _)
  · simp only [List.mem_flatMap, List.mem_range, List.mem_cons,
      List.mem_singleton, List.not_mem_nil, or_false] at hn
    obtain ⟨h, hh, o, ho, hcase⟩ := hn
    rcases hcase with rfl | rfl
    · have hmem : Element.cap s!"ac_ho_fast_{h}_{o}" (hoFastNode h o) gndNode
          (prm.hoFastRC h o).C ∈ hoSynElements h o (ctHO h o)
          (prm.hoFastRC h o) (prm.hoSlowRC h o) := by
        simp [hoSynElements]
      exact hasCapToGround_of_mem (mem_build_ho hh ho hmem)
        (isCapOn_self _ _ _)
    · have hmem : Element.cap s!"ac_ho_slow_{h}_{o}" (hoSlowNode h o) gndNode
          (prm.hoSlowRC h o).C ∈ hoSynElements h o (ctHO h o)
          (prm.hoFastRC h o) (prm.hoSlowRC h o) := by
        simp [hoSynElements]
      exact hasCapToGround_of_mem (mem_build_ho hh ho hmem)
        (isCapOn_self _ _ _)

/-- Witness for C3 (amended) on the input node of a concrete build. -/
theorem C3_no_floating_layer_or_storage_node_witness :
    inputNode 0 ∈ layerStorageNodes 1 1 1 ∧
    hasCapToGround
      (build_circuit_for_learning 1 1 1 initMatrix initMatrix constParams)
      (inputNode 0) = true :=
  ⟨by decide,
    C3_no_floating_layer_or_storage_node 1 1 1 initMatrix initMatrix
      constParams (inputNode 0) (by decide)⟩

/-- C5 counterexample: in a concrete build whose every synapse is
`dramNeighborCtrl` (LateralModulated), no element of the circuit has the
neighbor-modulation node as its gate (control) terminal — the leak-control
MOSFETs use the synapse's fast storage node as the gate and attach
`v_neighbor_modulate` as the source terminal. -/
theorem C5_counterexample :
    ncTopo 0 0 = CellType.dramNeighborCtrl ∧
    (build_circuit_for_learning 1 1 1 ncTopo ncTopo constParams).any
      (fun e => gateOf e == some neighborModNode) = false := by
  constructor
  · rfl
  · decide

/-- C5 (amended): every `dramNeighborCtrl` (LateralModulated) synapse gets a
gated leak-control MOSFET attached to the shared neighbor-modulation node —
but with `v_neighbor_modulate` as the source terminal and the synapse's fast
storage node as the gate (control) terminal (drain is `vdd` for
input-to-hidden synapses and the fast node itself for hidden-to-output
synapses). -/
theorem C5_lateral_leak_ctrl_element (nIn nHid nOut : ℕ)
    (ctIH ctHO : CellMatrix) (prm : CircuitParams) :
    (∀ i h, i < nIn → h < nHid → ctIH i h = CellType.dramNeighborCtrl →
      Element.mosfet s!"ih_leak_ctrl_{i}_{h}" vddNode (ihFastNode i h)
          neighborModNode gndNode "nmos_leak_ctrl" ∈
        build_circuit_for_learning nIn nHid nOut ctIH ctHO prm) ∧
    (∀ h o, h < nHid → o < nOut → ctHO h o = CellType.dramNeighborCtrl →
      Element.mosfet s!"ho_leak_ctrl_{h}_{o}" (hoFastNode h o)
          (hoFastNode h o) neighborModNode gndNode "nmos_leak_ctrl" ∈
        build_circuit_for_learning nIn nHid nOut ctIH ctHO prm) := by
  constructor
  · intro i h hi hh hct
    refine mem_build_ih hi hh ?_
    rw [hct]
    simp [ihSynElements]
  · intro h o hh ho hct
    refine mem_build_ho hh ho ?_
    rw [hct]
    simp [hoSynElements]

/-- Witness for C5 (amended) on a concrete all-lateral build. -/
theorem C5_lateral_leak_ctrl_element_witness :
    (0 < 1 ∧ ncTopo 0 0 = CellType.dramNeighborCtrl) ∧
    Element.mosfet "ih_leak_ctrl_0_0" vddNode (ihFastNode 0 0)
        neighborModNode gndNode "nmos_leak_ctrl" ∈
      build_circuit_for_learning 1 1 1 ncTopo ncTopo constParams :=
  ⟨⟨Nat.zero_lt_one, rfl⟩,
    (C5_lateral_leak_ctrl_element 1 1 1 ncTopo ncTopo constParams).1 0 0
      Nat.zero_lt_one Nat.zero_lt_one rfl⟩

lemma getElem?_map_range {β : Type} (f : ℕ → β) {n i : ℕ} (hi : i < n) :
    ((List.range n).map f)[i]? = some (f i) := by
  rw [List.getElem?_map, List.getElem?_range hi, Option.map_some']

lemma entry_map_range {f : ℕ → ℕ → ℚ} {n1 n2 i j : ℕ} (hi : i < n1)
    (hj : j < n2) :
    entry ((List.range n1).map fun i => (List.range n2).map fun j => f i j)
      i j = f i j := by
  unfold entry
  simp [List.getD_eq_getElem?_getD, getElem?_map_range _ hi,
    getElem?_map_range _ hj]

lemma extractWeight_of_missing {rand : ℚ} {a : Analysis}
    {fastN slowN : String}
    (h : findNode a fastN = none ∨ findNode a slowN = none) :
    extractWeight rand a fastN slowN = rand := by
  unfold extractWeight
  rcases h with h | h
  · rw [h]
  · rw [h]
    cases findNode a fastN <;> rfl

lemma extractWeight_of_present {rand : ℚ} {a : Analysis}
    {fastN slowN : String} {vf vs : List ℚ} {xf xs : ℚ}
    (hf : findNode a fastN = some vf) (hs : findNode a slowN = some vs)
    (hxf : vf.getLast? = some xf) (hxs : vs.getLast? = some xs) :
    extractWeight rand a fastN slowN = xf + xs := by
  simp [extractWeight, hf, hs, hxf, hxs]

/-- C6: a failed simulation still yields complete weight matrices of the
declared shapes with every entry a supplied random value in `[0.1, 0.5]`;
on a present result each entry is extracted independently — an entry whose
fast or slow node is absent is substituted with its own random value, while
every entry is the independent per-synapse extraction of its own nodes. -/
theorem C6_failure_randomized_extraction (nIn nHid nOut : ℕ)
    (randIH randHO : ℕ → ℕ → ℚ)
    (ihFast ihSlow hoFast hoSlow : ℕ → ℕ → String)
    (hIH : ∀ i h, randIH i h ∈ Set.Icc (1 / 10 : ℚ) (1 / 2))
    (hHO : ∀ h o, randHO h o ∈ Set.Icc (1 / 10 : ℚ) (1 / 2)) :
    ((extract_network_state nIn nHid nOut randIH randHO ihFast ihSlow hoFast
        hoSlow none).1.length = nIn ∧
     (extract_network_state nIn nHid nOut randIH randHO ihFast ihSlow hoFast
        hoSlow none).2.length = nHid ∧
     (∀ row ∈ (extract_network_state nIn nHid nOut randIH randHO ihFast
        ihSlow hoFast hoSlow none).1, row.length = nHid ∧
        ∀ x ∈ row, x ∈ Set.Icc (1 / 10 : ℚ) (1 / 2)) ∧
     (∀ row ∈ (extract_network_state nIn nHid nOut randIH randHO ihFast
        ihSlow hoFast hoSlow none).2, row.length = nOut ∧
        ∀ x ∈ row, x ∈ Set.Icc (1 / 10 : ℚ) (1 / 2))) ∧
    (∀ (a : Analysis) (i h : ℕ), i < nIn → h < nHid →
      entry (extract_network_state nIn nHid nOut randIH randHO ihFast ihSlow
          hoFast hoSlow (some a)).1 i h =
        extractWeight (randIH i h) a (pyLower (ihFast i h))
          (pyLower (ihSlow i h)) ∧
      ((findNode a (pyLower (ihFast i h)) = none ∨
        findNode a (pyLower (ihSlow i h)) = none) →
        entry (extract_network_state nIn nHid nOut randIH randHO ihFast
            ihSlow hoFast hoSlow (some a)).1 i h = randIH i h)) ∧
    (∀ (a : Analysis) (h o : ℕ), h < nHid → o < nOut →
      entry (extract_network_state nIn nHid nOut randIH randHO ihFast ihSlow
          hoFast hoSlow (some a)).2 h o =
        extractWeight (randHO h o) a (pyLower (hoFast h o))
          (pyLower (hoSlow h o)) ∧
      ((findNode a (pyLower (hoFast h o)) = none ∨
        findNode a (pyLower (hoSlow h o)) = none) →
        entry (extract_network_state nIn nHid nOut randIH randHO ihFast
            ihSlow hoFast hoSlow (some a)).2 h o = randHO h o)) := by
  refine ⟨⟨?_, ?_, ?_, ?_⟩, ?_, ?_⟩
  · simp [extract_network_state]
  · simp [extract_network_state]
  · intro row hrow
    simp only [extract_network_state, List.mem_map] at hrow
    obtain ⟨i, _, rfl⟩ := hrow
    refine ⟨by simp, ?_⟩
    intro x hx
    simp only [List.mem_map] at hx
    obtain ⟨h, _, rfl⟩ := hx
    exact hIH i h
  · intro row hrow
    simp only [extract_network_state, List.mem_map] at hrow
    obtain ⟨h, _, rfl⟩ := hrow
    refine ⟨by simp, ?_⟩
    intro x hx
    simp only [List.mem_map] at hx
    obtain ⟨o, _, rfl⟩ := hx
    exact hHO h o
  · intro a i h hi hh
    have he : entry (extract_network_state nIn nHid nOut randIH randHO
        ihFast ihSlow hoFast hoSlow (some a)).1 i h =
        extractWeight (randIH i h) a (pyLower (ihFast i h))
          (pyLower (ihSlow i h)) := by
      show entry ((List.range nIn).map fun i => (List.range nHid).map
        fun h => extractWeight (randIH i h) a (pyLower (ihFast i h))
          (pyLower (ihSlow i h))) i h = _
      exact entry_map_range hi hh
    refine ⟨he, ?_⟩
    intro hmiss
    rw [he, extractWeight_of_missing hmiss]
  · intro a h o hh ho
    have he : entry (extract_network_state nIn nHid nOut randIH randHO
        ihFast ihSlow hoFast hoSlow (some a)).2 h o =
        extractWeight (randHO h o) a (pyLower (hoFast h o))
          (pyLower (hoSlow h o)) := by
      show entry ((List.range nHid).map fun h => (List.range nOut).map
        fun o => extractWeight (randHO h o) a (pyLower (hoFast h o))
          (pyLower (hoSlow h o))) h o = _
      exact entry_map_range hh ho
    refine ⟨he, ?_⟩
    intro hmiss
    rw [he, extractWeight_of_missing hmiss]

/-- Witness for C6: with an empty node set, an in-bounds entry equals its
random fallback value. -/
theorem C6_failure_randomized_extraction_witness :
    (∀ i h : ℕ, (fun _ _ : ℕ => (1 / 4 : ℚ)) i h ∈
      Set.Icc (1 / 10 : ℚ) (1 / 2)) ∧
    entry (extract_network_state 1 1 1 (fun _ _ => 1 / 4) (fun _ _ => 1 / 4)
      ihFastNode ihSlowNode hoFastNode hoSlowNode
      (some ⟨[0], []⟩)).1 0 0 = 1 / 4 :=
  ⟨fun _ _ => by norm_num,
    ((C6_failure_randomized_extraction 1 1 1 (fun _ _ => 1 / 4)
        (fun _ _ => 1 / 4) ihFastNode ihSlowNode hoFastNode hoSlowNode
        (fun _ _ => by norm_num) (fun _ _ => by norm_num)).2.1
      ⟨[0], []⟩ 0 0 Nat.zero_lt_one Nat.zero_lt_one).2 (Or.inl rfl)⟩

/-- C7: for every synapse whose fast and slow storage nodes are both present
in a successful result (with a readable final sample), the extracted weight
is the sum of the final voltages of the fast and the slow node. -/
theorem C7_weight_sum_of_final_voltages (nIn nHid nOut : ℕ)
    (randIH randHO : ℕ → ℕ → ℚ)
    (ihFast ihSlow hoFast hoSlow : ℕ → ℕ → String) :
    (∀ (a : Analysis) (i h : ℕ) (vf vs : List ℚ) (xf xs : ℚ), i < nIn →
      h < nHid → findNode a (pyLower (ihFast i h)) = some vf →
      findNode a (pyLower (ihSlow i h)) = some vs →
      vf.getLast? = some xf → vs.getLast? = some xs →
      entry (extract_network_state nIn nHid nOut randIH randHO ihFast ihSlow
        hoFast hoSlow (some a)).1 i h = xf + xs) ∧
    (∀ (a : Analysis) (h o : ℕ) (vf vs : List ℚ) (xf xs : ℚ), h < nHid →
      o < nOut → findNode a (pyLower (hoFast h o)) = some vf →
      findNode a (pyLower (hoSlow h o)) = some vs →
      vf.getLast? = some xf → vs.getLast? = some xs →
      entry (extract_network_state nIn nHid nOut randIH randHO ihFast ihSlow
        hoFast hoSlow (some a)).2 h o = xf + xs) := by
  constructor
  · intro a i h vf vs xf xs hi hh hf hs hxf hxs
    have he : entry (extract_network_state nIn nHid nOut randIH randHO
        ihFast ihSlow hoFast hoSlow (some a)).1 i h =
        extractWeight (randIH i h) a (pyLower (ihFast i h))
          (pyLower (ihSlow i h)) := by
      show entry ((List.range nIn).map fun i => (List.range nHid).map
        fun h => extractWeight (randIH i h) a (pyLower (ihFast i h))
          (pyLower (ihSlow i h))) i h = _
      exact entry_map_range hi hh
    rw [he, extractWeight_of_present hf hs hxf hxs]
  · intro a h o vf vs xf xs hh ho hf hs hxf hxs
    have he : entry (extract_network_state nIn nHid nOut randIH randHO
        ihFast ihSlow hoFast hoSlow (some a)).2 h o =
        extractWeight (randHO h o) a (pyLower (hoFast h o))
          (pyLower (hoSlow h o)) := by
      show entry ((List.range nHid).map fun h => (List.range nOut).map
        fun o => extractWeight (randHO h o) a (pyLower (hoFast h o))
          (pyLower (hoSlow h o))) h o = _
      exact entry_map_range hh ho
    rw [he, extractWeight_of_present hf hs hxf hxs]

/-- Witness for C7 on a two-node concrete result: weight `= 2 + 3`. -/
theorem C7_weight_sum_of_final_voltages_witness :
    entry (extract_network_state 1 1 1 (fun _ _ => 1 / 4) (fun _ _ => 1 / 4)
      ihFastNode ihSlowNode hoFastNode hoSlowNode
      (some ⟨[0], [(ihFastNode 0 0, [2]), (ihSlowNode 0 0, [3])]⟩)).1 0 0 =
      2 + 3 :=
  (C7_weight_sum_of_final_voltages 1 1 1 (fun _ _ => 1 / 4)
      (fun _ _ => 1 / 4) ihFastNode ihSlowNode hoFastNode hoSlowNode).1
    ⟨[0], [(ihFastNode 0 0, [2]), (ihSlowNode 0 0, [3])]⟩ 0 0 [2] [3] 2 3
    Nat.zero_lt_one Nat.zero_lt_one (by decide) (by decide) rfl rfl

lemma layerExtractOk_extract (a : Analysis) (ns : List String)
    (hlen : ∀ p ∈ a.nodes, p.2.length = a.time.length) :
    LayerExtractOk a ns (extractLayerActivity a ns) := by
  refine ⟨by simp [extractLayerActivity], ?_, ?_⟩
  · intro k n hk
    constructor
    · intro hmiss
      rw [extractLayerActivity, List.getElem?_map, hk, Option.map_some']
      rw [hmiss]
    · intro tr htr
      rw [extractLayerActivity, List.getElem?_map, hk, Option.map_some']
      rw [htr]
  · intro col hcol
    rw [extractLayerActivity, List.mem_map] at hcol
    obtain ⟨n, _, hcoleq⟩ := hcol
    cases heq : findNode a (pyLower n) with
    | none =>
      rw [heq] at hcoleq
      rw [← hcoleq]
      exact List.length_replicate _ _
    | some tr =>
      rw [heq] at hcoleq
      rw [← hcoleq]
      unfold findNode at heq
      obtain ⟨q, hq, hq2⟩ := Option.map_eq_some'.mp heq
      rw [← hq2]
      exact hlen q (List.mem_of_find?_eq_some hq)

/-- C10: on a successful result, each layer's activity has one column per
declared neuron and one row per time sample; an absent layer node yields an
all-zero column (not a random substitute) and a present node's series is
copied unchanged. -/
theorem C10_activity_extraction (a : Analysis)
    (inN hidN outN : List String)
    (hlen : ∀ p ∈ a.nodes, p.2.length = a.time.length) :
    LayerExtractOk a inN (extract_activity_over_time a inN hidN outN).2.1 ∧
    LayerExtractOk a hidN
      (extract_activity_over_time a inN hidN outN).2.2.1 ∧
    LayerExtractOk a outN
      (extract_activity_over_time a inN hidN outN).2.2.2 :=
  ⟨layerExtractOk_extract a inN hlen, layerExtractOk_extract a hidN hlen,
    layerExtractOk_extract a outN hlen⟩

/-- Witness for C10 on a concrete result with one time sample and no stored
nodes. -/
theorem C10_activity_extraction_witness :
    LayerExtractOk ⟨[0], []⟩ [inputNode 0]
      (extract_activity_over_time ⟨[0], []⟩ [inputNode 0] [hiddenNode 0]
        [outputNode 0]).2.1 :=
  (C10_activity_extraction ⟨[0], []⟩ [inputNode 0] [hiddenNode 0]
    [outputNode 0] (by simp)).1

/-- C9: with fewer than 2 time samples the performance evaluator returns
accuracy `0.0` and a per-pattern vector marking every pattern incorrect,
for every target list (and, being a total function, it raises no error). -/
theorem C9_degenerate_time_axis (output_activity targets : List (List ℚ))
    (time_us : List ℚ) (phase_duration : ℚ) (h : time_us.length ≤ 1) :
    calculate_performance output_activity targets time_us phase_duration =
      (0, List.replicate targets.length false) := by
  unfold calculate_performance
  rw [if_pos h]

/-- Witness for C9 on a one-sample time axis and two targets. -/
theorem C9_degenerate_time_axis_witness :
    calculate_performance [] [[1, 0], [0, 1]] [0] 20 =
      (0, [false, false]) := by
  have h := C9_degenerate_time_axis [] [[1, 0], [0, 1]] [0] 20 (by decide)
  simpa using h

/-- C1 (code bug): the claim says a simulation failure never halts the run,
but line 1017 iterates `analysis.nodes` unconditionally right after
`run_simulation`; on a failing driver the run aborts with `AttributeError`
before any weight pair or accuracy is appended, contradicting the failure
branches of `extract_network_state`/`extract_activity_over_time` and the
comment at line 1021. Evaluated here at a one-step run whose driver fails. -/
theorem C1_sim_failure_halts_run :
    run_learning_experiment
      ⟨1, 1, 1, [[1]], fun _ => none, fun _ _ _ => 1 / 4,
        fun _ _ _ => 1 / 4⟩ 1 [[0]] [[0]] =
    Except.error "AttributeError: NoneType object has no attribute nodes" :=
  rfl

end PyspiceNet
